import Mathlib

/-!
Storage: project lookup in a Kubernetes secret store

A shallow embedding of `pkg/storage/storage.go`.

* Go `string` and `[]byte` are both immutable byte sequences; they are embedded as
  `List UInt8`, and `string(b)` / `[]byte(s)` are the identity.
* A Go map is embedded as a partial function; indexing an absent key yields the
  zero value of the element type.
* A run-time panic (an out-of-range slice expression) is the `none` of `Option`.
* `(*acid.Project, error)` is embedded as `Project × Option ε`, where `none` is
  the `nil` error. `configureProject` mutates `*proj`; the embedding returns the
  mutated value together with the error.
* The Kubernetes client and `json.Unmarshal` belong to other libraries and are
  parameters of the embedding.
-/

namespace Storage

/-- A Go string: a sequence of bytes. -/
abbrev GoString := List UInt8

/-- The bytes of a Go string literal (Go source text is UTF-8). -/
def utf8 (s : String) : GoString := s.toList.flatMap String.utf8EncodeChar

/-! Section: `crypto/sha256` (FIPS 180-4), on 32-bit words held in `Nat`. -/

/-- Round constants of SHA-256. -/
def K256 : List Nat := [
  0x428a2f98, 0x71374491, 0xb5c0fbcf, 0xe9b5dba5, 0x3956c25b, 0x59f111f1, 0x923f82a4, 0xab1c5ed5,
  0xd807aa98, 0x12835b01, 0x243185be, 0x550c7dc3, 0x72be5d74, 0x80deb1fe, 0x9bdc06a7, 0xc19bf174,
  0xe49b69c1, 0xefbe4786, 0x0fc19dc6, 0x240ca1cc, 0x2de92c6f, 0x4a7484aa, 0x5cb0a9dc, 0x76f988da,
  0x983e5152, 0xa831c66d, 0xb00327c8, 0xbf597fc7, 0xc6e00bf3, 0xd5a79147, 0x06ca6351, 0x14292967,
  0x27b70a85, 0x2e1b2138, 0x4d2c6dfc, 0x53380d13, 0x650a7354, 0x766a0abb, 0x81c2c92e, 0x92722c85,
  0xa2bfe8a1, 0xa81a664b, 0xc24b8b70, 0xc76c51a3, 0xd192e819, 0xd6990624, 0xf40e3585, 0x106aa070,
  0x19a4c116, 0x1e376c08, 0x2748774c, 0x34b0bcb5, 0x391c0cb3, 0x4ed8aa4a, 0x5b9cca4f, 0x682e6ff3,
  0x748f82ee, 0x78a5636f, 0x84c87814, 0x8cc70208, 0x90befffa, 0xa4506ceb, 0xbef9a3f7, 0xc67178f2]

/-- The eight 32-bit chaining words of SHA-256. -/
structure Digest256 where
  h0 : Nat
  h1 : Nat
  h2 : Nat
  h3 : Nat
  h4 : Nat
  h5 : Nat
  h6 : Nat
  h7 : Nat

/-- Initial hash value of SHA-256. -/
def initDigest : Digest256 :=
  ⟨0x6a09e667, 0xbb67ae85, 0x3c6ef372, 0xa54ff53a, 0x510e527f, 0x9b05688c, 0x1f83d9ab, 0x5be0cd19⟩

/-- Addition of `uint32` values. -/
def add32 (a b : Nat) : Nat := (a + b) % 2 ^ 32

/-- Rotation of a `uint32` to the right by `n` bits. -/
def rotr32 (x n : Nat) : Nat := ((x >>> n) ||| (x <<< (32 - n))) % 2 ^ 32

/-- Bitwise complement of a `uint32`. -/
def not32 (x : Nat) : Nat := 2 ^ 32 - 1 - x % 2 ^ 32

def bigSigma0 (x : Nat) : Nat := rotr32 x 2 ^^^ rotr32 x 13 ^^^ rotr32 x 22

def bigSigma1 (x : Nat) : Nat := rotr32 x 6 ^^^ rotr32 x 11 ^^^ rotr32 x 25

def smallSigma0 (x : Nat) : Nat := rotr32 x 7 ^^^ rotr32 x 18 ^^^ (x >>> 3)

def smallSigma1 (x : Nat) : Nat := rotr32 x 17 ^^^ rotr32 x 19 ^^^ (x >>> 10)

def ch (x y z : Nat) : Nat := (x &&& y) ^^^ (not32 x &&& z)

def maj (x y z : Nat) : Nat := (x &&& y) ^^^ (x &&& z) ^^^ (y &&& z)

/-- Big-endian value of a byte sequence. -/
def beWord (bs : List UInt8) : Nat :=
  bs.foldl (fun acc b => acc * 256 + b.toNat) 0

/-- The first `n` big-endian 32-bit words of a byte sequence. -/
def blockWords : Nat → List UInt8 → List Nat
  | 0, _ => []
  | n + 1, bs => beWord (bs.take 4) :: blockWords n (bs.drop 4)

/-- Extends the message schedule `w` by `n` further words. -/
def schedule : Nat → List Nat → List Nat
  | 0, w => w
  | n + 1, w =>
    let t := w.length
    schedule n (w ++ [add32 (add32 (add32 (smallSigma1 (w.getD (t - 2) 0)) (w.getD (t - 7) 0))
      (smallSigma0 (w.getD (t - 15) 0))) (w.getD (t - 16) 0)])

/-- One round of the compression function, on the pair (round constant, schedule word). -/
def round (s : Digest256) (kw : Nat × Nat) : Digest256 :=
  let t1 := add32 (add32 (add32 (add32 s.h7 (bigSigma1 s.h4)) (ch s.h4 s.h5 s.h6)) kw.1) kw.2
  let t2 := add32 (bigSigma0 s.h0) (maj s.h0 s.h1 s.h2)
  ⟨add32 t1 t2, s.h0, s.h1, s.h2, add32 s.h3 t1, s.h4, s.h5, s.h6⟩

/-- The compression function on one 64-byte block. -/
def block (s : Digest256) (p : List UInt8) : Digest256 :=
  let w := schedule 48 (blockWords 16 p)
  let r := (K256.zip w).foldl round s
  ⟨add32 s.h0 r.h0, add32 s.h1 r.h1, add32 s.h2 r.h2, add32 s.h3 r.h3,
   add32 s.h4 r.h4, add32 s.h5 r.h5, add32 s.h6 r.h6, add32 s.h7 r.h7⟩

/-- Compresses the first `n` 64-byte blocks of `p`. -/
def blocks : Nat → Digest256 → List UInt8 → Digest256
  | 0, s, _ => s
  | n + 1, s, p => blocks n (block s (p.take 64)) (p.drop 64)

/-- The `n` low-order bytes of `x`, most significant first. -/
def beBytes : Nat → Nat → List UInt8
  | 0, _ => []
  | n + 1, x => UInt8.ofNat (x / 256 ^ n % 256) :: beBytes n x

/-- Message padding: a `0x80` byte, zeros up to 56 modulo 64, and the bit length as a
`uint64`. -/
def pad (msg : List UInt8) : List UInt8 :=
  msg ++ [0x80] ++ List.replicate ((119 - msg.length % 64) % 64) 0
    ++ beBytes 8 (msg.length * 8 % 2 ^ 64)

/-- The function `sha256.Sum256`: the 32-byte SHA-256 checksum of `data`. -/
def Sum256 (data : List UInt8) : List UInt8 :=
  let p := pad data
  let d := blocks (p.length / 64) initDigest p
  [d.h0, d.h1, d.h2, d.h3, d.h4, d.h5, d.h6, d.h7].flatMap (beBytes 4)

/-! Section: the pieces of `fmt` and `strings` used by the package. -/

/-- The lower-case hexadecimal digit of a value below 16, as an ASCII byte. -/
def hexDigit (n : Nat) : UInt8 :=
  if n < 10 then UInt8.ofNat (48 + n) else UInt8.ofNat (87 + n)

/-- The rendering `fmt.Sprintf("%x", b)` of a byte array: two lower-case hexadecimal
digits per byte. -/
def fmtHex (bs : List UInt8) : GoString :=
  bs.flatMap (fun b => [hexDigit (b.toNat / 16), hexDigit (b.toNat % 16)])

/-- The slice expression `s[lo:hi]`, which panics when the bounds are out of range. -/
def slice (s : GoString) (lo hi : Nat) : Option GoString :=
  if lo ≤ hi ∧ hi ≤ s.length then some ((s.drop lo).take (hi - lo)) else none

/-- The function `strings.HasPrefix`:
`len(s) >= len(prefix) && s[0:len(prefix)] == prefix`. -/
def HasPrefix (s pre : GoString) : Bool :=
  decide (s.length ≥ pre.length) && (s.take pre.length == pre)

/-- Worker of `Replace`: `skip` counts the bytes of `s` still covered by the last match. -/
def replaceFrom (old new : GoString) : Nat → GoString → GoString
  | _, [] => []
  | skip + 1, _ :: cs => replaceFrom old new skip cs
  | 0, c :: cs =>
    if old.isPrefixOf (c :: cs) then new ++ replaceFrom old new (old.length - 1) cs
    else c :: replaceFrom old new 0 cs

/-- The call `strings.Replace(s, old, new, -1)` for a non-empty `old`: every
non-overlapping occurrence of `old`, found from left to right, is replaced by `new`. -/
def Replace (s old new : GoString) : GoString := replaceFrom old new 0 s

/-! Section: the data model. -/

/-- A Go `map[string]string`. -/
abbrev StringMap := GoString → Option GoString

/-- Indexing `m[k]` of a `map[string][]byte` or `map[string]string`: the zero value
(`nil`, respectively the empty string) when `k` is absent. -/
def index (m : GoString → Option (List UInt8)) (k : GoString) : List UInt8 :=
  (m k).getD []

/-- Modelled from the spec: the type `acid.Repo`, declared in package `pkg/acid`; the
fields are those assigned by this package. -/
structure Repo where
  Name : GoString
  SSHKey : GoString
  CloneURL : GoString

/-- Modelled from the spec: the type of the field `Kubernetes` of `acid.Project`,
declared in package `pkg/acid`. -/
structure Kubernetes where
  Namespace : GoString
  VCSSidecar : GoString

/-- Modelled from the spec: the type `acid.Project`, declared in package `pkg/acid`; the
fields are those assigned by this package. `Secrets` is a `map[string]string`, whose zero
value `nil` is `none`. -/
structure Project where
  Name : GoString
  Repo : Storage.Repo
  Kubernetes : Storage.Kubernetes
  SharedSecret : GoString
  GitHubToken : GoString
  Secrets : Option StringMap

/-- The value of `&acid.Project{}`: every field is zero. -/
def zeroProject : Project :=
  ⟨[], ⟨[], [], []⟩, ⟨[], []⟩, [], [], none⟩

/-- The Kubernetes `Secret` object, as far as this package reads it. -/
structure Secret where
  Name : GoString
  Annotations : GoString → Option GoString
  Data : GoString → Option (List UInt8)

/-- The call `kc.CoreV1().Secrets(namespace).Get(name)` of a Kubernetes client. -/
abbrev Client (ε : Type) := GoString → GoString → Except ε Secret

/-- The call `json.Unmarshal(d, &m)` for `m` of type `map[string]string`: the value of `m`
afterwards, and the error. -/
abbrev Unmarshal (ε : Type) := List UInt8 → Option StringMap → Option StringMap × Option ε

/-! Section: `pkg/storage/storage.go`. -/

def DefaultVCSSidecar : GoString := utf8 "acidic.azurecr.io/vcs-sidecar:latest"

/-- ShortSHA returns a 32-char SHA256 digest as a string. -/
def ShortSHA (input : GoString) : Option GoString :=
  let sum := Sum256 input
  slice (fmtHex sum) 0 54

/-- Encodes a project name (`projectID`). -/
def projectID (id : GoString) : Option GoString :=
  if HasPrefix id (utf8 "acid-") then some id
  else (ShortSHA id).map (fun sha => utf8 "acid-" ++ sha)

/-- The function `def` of the source (a keyword here). -/
def def_ (a : List UInt8) (b : GoString) : GoString :=
  if a.length = 0 then b else a

/-- The function `configureProject`: the project after the assignments, and the error
returned. -/
def configureProject {ε : Type} (unmarshal : Unmarshal ε) (proj : Project)
    (data : GoString → Option (List UInt8)) (namespace_ : GoString) : Project × Option ε :=
  let proj := { proj with SharedSecret := def_ (index data (utf8 "sharedSecret")) (utf8 "") }
  let proj := { proj with GitHubToken := index data (utf8 "githubToken") }
  let proj := { proj with
    Kubernetes := { proj.Kubernetes with
      Namespace := def_ (index data (utf8 "namespace")) namespace_ } }
  let proj := { proj with
    Kubernetes := { proj.Kubernetes with
      VCSSidecar := def_ (index data (utf8 "vcsSidecar")) DefaultVCSSidecar } }
  let proj := { proj with
    Repo := {
      Name := def_ (index data (utf8 "repository")) proj.Name
      SSHKey := Replace (index data (utf8 "sshKey")) (utf8 "$") (utf8 "\n")
      CloneURL := def_ (index data (utf8 "cloneURL")) (utf8 "") } }
  let envVars : Option StringMap := some (fun _ => none)
  let d := index data (utf8 "secrets")
  if d.length > 0 then
    match unmarshal d envVars with
    | (_, some err) => (proj, some err)
    | (envVars, none) => ({ proj with Secrets := envVars }, none)
  else ({ proj with Secrets := envVars }, none)

/-- Loads a project config from inside of Kubernetes (`loadProjectConfig`); `kubeClient`
is the result of `libk8s.KubeClient()`. -/
def loadProjectConfig {ε : Type} (unmarshal : Unmarshal ε) (kubeClient : Except ε (Client ε))
    (id namespace_ : GoString) : Project × Option ε :=
  let proj := zeroProject
  match kubeClient with
  | .error err => (proj, some err)
  | .ok kc =>
    match kc namespace_ id with
    | .error err => (proj, some err)
    | .ok secret =>
      let proj := { proj with Name := secret.Name }
      let proj := { proj with
        Repo := { proj.Repo with Name := index secret.Annotations (utf8 "projectName") } }
      configureProject unmarshal proj secret.Data namespace_

/-- Retrieves the project from storage (`store.Get`); `none` is a panic. -/
def Get {ε : Type} (unmarshal : Unmarshal ε) (kubeClient : Except ε (Client ε))
    (id namespace_ : GoString) : Option (Project × Option ε) :=
  (projectID id).map (fun key => loadProjectConfig unmarshal kubeClient key namespace_)

/-- A lower-case hexadecimal digit: one of the ASCII bytes `0`-`9`, `a`-`f`. -/
def isLowerHex (c : UInt8) : Prop :=
  (48 ≤ c.toNat ∧ c.toNat ≤ 57) ∨ (97 ≤ c.toNat ∧ c.toNat ≤ 102)

instance (c : UInt8) : Decidable (isLowerHex c) := by
  unfold isLowerHex; infer_instance

/-- Modelled from the spec: the escaping applied when an SSH key is written to the store,
which this package does not contain: each newline is replaced by `$`. -/
def escapeSSHKey (t : GoString) : GoString := Replace t (utf8 "\n") (utf8 "$")

/-! Section: a concrete store for the examples. -/

/-- The errors met in the examples. -/
inductive StoreError where
  | connection
  | notFound
  | jsonSyntax
  deriving DecidableEq

/-- The JSON text of the object with the two members `A: 1` and `B: 2`, both strings. -/
def jsonAB : List UInt8 := utf8 "\x7b\"A\":\"1\",\"B\":\"2\"\x7d"

/-- A stand-in for `json.Unmarshal` in the examples. It agrees with `json.Unmarshal` on
the two texts decoded in the examples: `not-json` is rejected with a syntax error and
leaves the map untouched; the text `jsonAB` is accepted and stores its two members in the
map (a `nil` map is allocated first). -/
def exampleUnmarshal : Unmarshal StoreError :=
  fun d m =>
    if d = utf8 "not-json" then (m, some StoreError.jsonSyntax)
    else if d = jsonAB then
      (some (fun k =>
        if k = utf8 "A" then some (utf8 "1")
        else if k = utf8 "B" then some (utf8 "2")
        else (m.getD (fun _ => none)) k), none)
    else (m, none)

/-- A record holding the entries of `kvs` (the first entry of a key counts). -/
def recordOf (kvs : List (GoString × List UInt8)) : GoString → Option (List UInt8) :=
  fun k => kvs.lookup k

/-- A secret named `acid-demo` whose `secrets` value is not JSON. -/
def badSecret : Secret where
  Name := utf8 "acid-demo"
  Annotations := recordOf [(utf8 "projectName", utf8 "my-repo")]
  Data := recordOf [(utf8 "sharedSecret", utf8 "s3cr3t"), (utf8 "sshKey", utf8 "a$b"),
    (utf8 "secrets", utf8 "not-json")]

/-- A store holding `sec` at `(ns, name)` and nothing else. -/
def storeWith (ns name : GoString) (sec : Secret) : Client StoreError :=
  fun ns1 name1 => if ns1 = ns ∧ name1 = name then .ok sec else .error StoreError.notFound

/-- The map `data` after `delete(data, k)`. -/
def removeKey (data : GoString → Option (List UInt8)) (k : GoString) :
    GoString → Option (List UInt8) :=
  fun k1 => if k1 = k then none else data k1

/-- The map with the two entries `A: 1` and `B: 2`. -/
def mapAB : StringMap :=
  fun k => if k = utf8 "A" then some (utf8 "1") else if k = utf8 "B" then some (utf8 "2") else none

/-- The store key of the project `myproj`: `acid-` and the short digest of `myproj`. -/
def myprojKey : GoString := utf8 "acid-14a10ceb48d968cf9a1514ab1d1c15554fc9f7ba356d9bb8248a16"

/-- The record of the project `myproj`: annotation `projectName = my-repo` and the data
`sshKey = a$b`. -/
def myprojSecret : Secret where
  Name := myprojKey
  Annotations := recordOf [(utf8 "projectName", utf8 "my-repo")]
  Data := recordOf [(utf8 "sshKey", utf8 "a$b")]

/-- The number of bits of the 256-bit digest of `s` that the output of `ShortSHA` does not
represent: eight bits for each digest byte, less four bits for each hexadecimal character
of the output. -/
def discardedBits (s : GoString) : Nat :=
  8 * (Sum256 s).length - 4 * ((ShortSHA s).getD []).length

/-- The record of the project `myproj` with another `projectName` annotation. -/
def myprojSecretRenamed : Secret where
  Name := myprojKey
  Annotations := recordOf [(utf8 "projectName", utf8 "another-repo")]
  Data := recordOf [(utf8 "sshKey", utf8 "a$b")]

/-! Section: the calls issued on the store client. -/

/-- A call on the client of the secret store. -/
inductive StoreCall where
  | read (ns name : GoString)
  | write (ns name : GoString)
  deriving DecidableEq

/-- The function `loadProjectConfig` together with the calls it issues on the store
client, in order: the only call in its body is `Secrets(namespace).Get(id)`, reached once
the client has been obtained. -/
def loadProjectConfigTraced {ε : Type} (unmarshal : Unmarshal ε)
    (kubeClient : Except ε (Client ε)) (id namespace_ : GoString) :
    (Project × Option ε) × List StoreCall :=
  let proj := zeroProject
  match kubeClient with
  | .error err => ((proj, some err), [])
  | .ok kc =>
    match kc namespace_ id with
    | .error err => ((proj, some err), [StoreCall.read namespace_ id])
    | .ok secret =>
      let proj := { proj with Name := secret.Name }
      let proj := { proj with
        Repo := { proj.Repo with Name := index secret.Annotations (utf8 "projectName") } }
      (configureProject unmarshal proj secret.Data namespace_, [StoreCall.read namespace_ id])

/-- The method `store.Get` together with the calls it issues on the store client. -/
def GetTraced {ε : Type} (unmarshal : Unmarshal ε) (kubeClient : Except ε (Client ε))
    (id namespace_ : GoString) : Option ((Project × Option ε) × List StoreCall) :=
  (projectID id).map (fun key => loadProjectConfigTraced unmarshal kubeClient key namespace_)

/-! Section: lemmas on the library functions. -/

theorem beBytes_length (n x : Nat) : (beBytes n x).length = n := by
  induction n with
  | zero => rfl
  | succ k ih => simp [beBytes, ih]

theorem Sum256_length (data : List UInt8) : (Sum256 data).length = 32 := by
  simp [Sum256, List.flatMap, beBytes_length]

/-- Known answers of SHA-256 (FIPS 180-4 examples): the empty message, the one-block
message `abc`, and a message that pads to two blocks. -/
theorem Sum256_known_answers :
    fmtHex (Sum256 (utf8 ""))
      = utf8 "e3b0c44298fc1c149afbf4c8996fb92427ae41e4649b934ca495991b7852b855" ∧
    fmtHex (Sum256 (utf8 "abc"))
      = utf8 "ba7816bf8f01cfea414140de5dae2223b00361a396177a9cb410ff61f20015ad" ∧
    fmtHex (Sum256 (utf8 "abcdbcdecdefdefgefghfghighijhijkijkljklmklmnlmnomnopnopq"))
      = utf8 "248d6a61d20638b8e5c026930c3e6039a33ce45964ff2167f6ecedd419db06c1" := by
  refine ⟨?_, ?_, ?_⟩ <;> decide!

theorem fmtHex_length (bs : List UInt8) : (fmtHex bs).length = 2 * bs.length := by
  induction bs with
  | nil => rfl
  | cons b bs ih =>
    have h : fmtHex (b :: bs) = hexDigit (b.toNat / 16) :: hexDigit (b.toNat % 16) :: fmtHex bs := by
      simp [fmtHex, List.flatMap]
    rw [h]; simp [ih]; omega

theorem hexDigit_lowerHex : ∀ n, n < 16 → isLowerHex (hexDigit n) := by
  decide

theorem fmtHex_lowerHex (bs : List UInt8) : ∀ c ∈ fmtHex bs, isLowerHex c := by
  induction bs with
  | nil => intro c hc; simp [fmtHex, List.flatMap] at hc
  | cons b bs ih =>
    have h : fmtHex (b :: bs) = hexDigit (b.toNat / 16) :: hexDigit (b.toNat % 16) :: fmtHex bs := by
      simp [fmtHex, List.flatMap]
    have hb : b.toNat < 256 := b.val.isLt
    intro c hc
    rw [h] at hc
    rcases List.mem_cons.mp hc with rfl | hc
    · exact hexDigit_lowerHex _ (by omega)
    rcases List.mem_cons.mp hc with rfl | hc
    · exact hexDigit_lowerHex _ (by omega)
    · exact ih c hc

theorem ShortSHA_eq_take (s : GoString) : ShortSHA s = some ((fmtHex (Sum256 s)).take 54) := by
  have h : (fmtHex (Sum256 s)).length = 64 := by rw [fmtHex_length, Sum256_length]
  simp [ShortSHA, slice, h]

theorem HasPrefix_iff (s p : GoString) : HasPrefix s p = true ↔ p <+: s := by
  constructor
  · intro h
    simp only [HasPrefix, Bool.and_eq_true, decide_eq_true_eq, beq_iff_eq] at h
    exact List.prefix_iff_eq_take.mpr h.2.symm
  · intro h
    have hlen := h.length_le
    have ht := (List.prefix_iff_eq_take.mp h).symm
    simp [HasPrefix, hlen, ht]

theorem HasPrefix_append (p d : GoString) : HasPrefix (p ++ d) p = true := by
  simp [HasPrefix]

theorem utf8_dollar : utf8 "$" = [36] := by decide

theorem utf8_newline : utf8 "\n" = [10] := by decide

theorem replaceFrom_single (a b : UInt8) (s : GoString) :
    replaceFrom [a] [b] 0 s = s.map (fun c => if c = a then b else c) := by
  induction s with
  | nil => rfl
  | cons c cs ih =>
    by_cases h : c = a
    · subst h; simp [replaceFrom, ih]
    · have h2 : ¬ a = c := fun e => h e.symm
      simp [replaceFrom, ih, h, h2]

theorem index_of_some {m : GoString → Option (List UInt8)} {k : GoString} {v : List UInt8}
    (h : m k = some v) : index m k = v := by
  simp [index, h]

theorem index_of_absent_or_empty {m : GoString → Option (List UInt8)} {k : GoString}
    (h : m k = none ∨ m k = some []) : index m k = [] := by
  rcases h with h | h <;> simp [index, h]

theorem def_of_empty (b : GoString) : def_ [] b = b := rfl

theorem def_of_nonempty {a : List UInt8} (h : a ≠ []) (b : GoString) : def_ a b = a := by
  cases a with
  | nil => exact absurd rfl h
  | cons x xs => rfl

theorem projectID_eq (s : GoString) :
    projectID s = some (if HasPrefix s (utf8 "acid-") = true then s
      else utf8 "acid-" ++ (fmtHex (Sum256 s)).take 54) := by
  unfold projectID
  split <;> simp [ShortSHA_eq_take]

/-- The fields written by `configureProject` before the `secrets` value is looked at. -/
theorem configureProject_fields {ε : Type} (unmarshal : Unmarshal ε) (proj : Project)
    (data : GoString → Option (List UInt8)) (ns : GoString) :
    (configureProject unmarshal proj data ns).1.Name = proj.Name ∧
    (configureProject unmarshal proj data ns).1.SharedSecret
      = def_ (index data (utf8 "sharedSecret")) [] ∧
    (configureProject unmarshal proj data ns).1.GitHubToken = index data (utf8 "githubToken") ∧
    (configureProject unmarshal proj data ns).1.Kubernetes
      = ⟨def_ (index data (utf8 "namespace")) ns,
         def_ (index data (utf8 "vcsSidecar")) DefaultVCSSidecar⟩ ∧
    (configureProject unmarshal proj data ns).1.Repo
      = ⟨def_ (index data (utf8 "repository")) proj.Name,
         Replace (index data (utf8 "sshKey")) (utf8 "$") (utf8 "\n"),
         def_ (index data (utf8 "cloneURL")) []⟩ := by
  unfold configureProject; dsimp only; split
  · split <;> exact ⟨rfl, rfl, rfl, rfl, rfl⟩
  · exact ⟨rfl, rfl, rfl, rfl, rfl⟩

theorem Replace_dollar (s : GoString) :
    Replace s (utf8 "$") (utf8 "\n") = s.map (fun c => if c = 36 then 10 else c) := by
  rw [utf8_dollar, utf8_newline]; exact replaceFrom_single 36 10 s

theorem escapeSSHKey_eq (t : GoString) :
    escapeSSHKey t = t.map (fun c => if c = 10 then 36 else c) := by
  unfold escapeSSHKey
  rw [utf8_dollar, utf8_newline]; exact replaceFrom_single 10 36 t

theorem unescape_escape (t : GoString) (h : (36 : UInt8) ∉ t) :
    (t.map (fun c => if c = 10 then (36 : UInt8) else c)).map (fun c => if c = 36 then 10 else c)
      = t := by
  induction t with
  | nil => rfl
  | cons c cs ih =>
    have hc : c ≠ 36 := fun e => h (by simp [e])
    have hcs : (36 : UInt8) ∉ cs := fun e => h (List.mem_cons_of_mem _ e)
    have ih2 := ih hcs
    simp only [List.map_cons, ih2]
    by_cases h10 : c = 10
    · simp [h10]
    · simp [h10, hc]

theorem storeWith_self (ns name : GoString) (sec : Secret) :
    storeWith ns name sec ns name = .ok sec := by
  simp [storeWith]

/-- The error path of `configureProject`: the fields written so far are kept and
`Secrets` is not assigned. -/
theorem configureProject_error {ε : Type} (unmarshal : Unmarshal ε) (proj : Project)
    (data : GoString → Option (List UInt8)) (ns : GoString) (e : ε)
    (hd : index data (utf8 "secrets") ≠ [])
    (he : (unmarshal (index data (utf8 "secrets")) (some (fun _ => none))).2 = some e) :
    configureProject unmarshal proj data ns =
      ({ Name := proj.Name
         Repo := ⟨def_ (index data (utf8 "repository")) proj.Name,
           Replace (index data (utf8 "sshKey")) (utf8 "$") (utf8 "\n"),
           def_ (index data (utf8 "cloneURL")) []⟩
         Kubernetes := ⟨def_ (index data (utf8 "namespace")) ns,
           def_ (index data (utf8 "vcsSidecar")) DefaultVCSSidecar⟩
         SharedSecret := def_ (index data (utf8 "sharedSecret")) []
         GitHubToken := index data (utf8 "githubToken")
         Secrets := proj.Secrets }, some e) := by
  have hlen : (index data (utf8 "secrets")).length > 0 := List.length_pos.mpr hd
  unfold configureProject; dsimp only
  rw [if_pos hlen]
  split
  · next m err hm =>
    rw [hm] at he
    cases he
    rfl
  · next m hm =>
    rw [hm] at he
    cases he

theorem jsonAB_bytes :
    jsonAB = [123, 34, 65, 34, 58, 34, 49, 34, 44, 34, 66, 34, 58, 34, 50, 34, 125] := by
  decide

theorem index_removeKey (data : GoString → Option (List UInt8)) (k : GoString)
    (h : data k = some []) (k1 : GoString) : index (removeKey data k) k1 = index data k1 := by
  unfold index removeKey
  by_cases hk : k1 = k
  · subst hk; simp [h]
  · simp [hk]

/-- The function `configureProject` reads `data` only through the index expressions. -/
theorem configureProject_congr {ε : Type} (unmarshal : Unmarshal ε) (proj : Project)
    (d1 d2 : GoString → Option (List UInt8)) (ns : GoString)
    (h : ∀ k, index d1 k = index d2 k) :
    configureProject unmarshal proj d1 ns = configureProject unmarshal proj d2 ns := by
  unfold configureProject
  simp only [h]

/-- The value of `proj.Repo` on entry has no effect on `configureProject`. -/
theorem configureProject_repo_irrelevant {ε : Type} (unmarshal : Unmarshal ε) (proj : Project)
    (r : Repo) (data : GoString → Option (List UInt8)) (ns : GoString) :
    configureProject unmarshal { proj with Repo := r } data ns
      = configureProject unmarshal proj data ns := rfl

theorem storeWith_other (ns name : GoString) (sec : Secret) (ns1 name1 : GoString)
    (h : ¬ (ns1 = ns ∧ name1 = name)) :
    storeWith ns name sec ns1 name1 = .error StoreError.notFound := by
  simp only [storeWith, if_neg h]

/-- The success path of `configureProject`. -/
theorem configureProject_success {ε : Type} (unmarshal : Unmarshal ε) (proj : Project)
    (data : GoString → Option (List UInt8)) (ns : GoString)
    (h : index data (utf8 "secrets") = [] ∨
      (unmarshal (index data (utf8 "secrets")) (some (fun _ => none))).2 = none) :
    configureProject unmarshal proj data ns =
      ({ Name := proj.Name
         Repo := ⟨def_ (index data (utf8 "repository")) proj.Name,
           Replace (index data (utf8 "sshKey")) (utf8 "$") (utf8 "\n"),
           def_ (index data (utf8 "cloneURL")) []⟩
         Kubernetes := ⟨def_ (index data (utf8 "namespace")) ns,
           def_ (index data (utf8 "vcsSidecar")) DefaultVCSSidecar⟩
         SharedSecret := def_ (index data (utf8 "sharedSecret")) []
         GitHubToken := index data (utf8 "githubToken")
         Secrets := if index data (utf8 "secrets") = [] then some (fun _ => none)
           else (unmarshal (index data (utf8 "secrets")) (some (fun _ => none))).1 }, none) := by
  by_cases hd : index data (utf8 "secrets") = []
  · unfold configureProject; dsimp only
    rw [hd]; rfl
  · have hu : (unmarshal (index data (utf8 "secrets")) (some (fun _ => none))).2 = none := by
      rcases h with h | h
      · exact absurd h hd
      · exact h
    have hlen : (index data (utf8 "secrets")).length > 0 := List.length_pos.mpr hd
    unfold configureProject; dsimp only
    rw [if_pos hlen, if_neg hd]
    split
    · next m err hm => rw [hm] at hu; cases hu
    · next m hm => rw [hm]; rfl

theorem loadProjectConfigTraced_fst {ε : Type} (unmarshal : Unmarshal ε)
    (kubeClient : Except ε (Client ε)) (id ns : GoString) :
    (loadProjectConfigTraced unmarshal kubeClient id ns).1
      = loadProjectConfig unmarshal kubeClient id ns := by
  unfold loadProjectConfigTraced loadProjectConfig
  cases kubeClient with
  | error e => rfl
  | ok kc =>
    dsimp only
    cases kc ns id <;> rfl

theorem loadProjectConfigTraced_snd {ε : Type} (unmarshal : Unmarshal ε)
    (kubeClient : Except ε (Client ε)) (id ns : GoString) :
    (loadProjectConfigTraced unmarshal kubeClient id ns).2
      = match kubeClient with
        | .error _ => []
        | .ok _ => [StoreCall.read ns id] := by
  unfold loadProjectConfigTraced
  cases kubeClient with
  | error e => rfl
  | ok kc =>
    dsimp only
    cases kc ns id <;> rfl

theorem projectID_myproj : projectID (utf8 "myproj") = some myprojKey := by
  decide!

theorem fmtHex_cons (b : UInt8) (bs : List UInt8) :
    fmtHex (b :: bs) = hexDigit (b.toNat / 16) :: hexDigit (b.toNat % 16) :: fmtHex bs := by
  simp [fmtHex, List.flatMap]

theorem fmtHex_take (n : Nat) (bs : List UInt8) :
    (fmtHex bs).take (2 * n) = fmtHex (bs.take n) := by
  induction n generalizing bs with
  | zero => rfl
  | succ k ih =>
    cases bs with
    | nil => rfl
    | cons b bs =>
      have h2 : 2 * (k + 1) = 2 * k + 1 + 1 := by omega
      rw [List.take_succ_cons, fmtHex_cons, fmtHex_cons, h2, List.take_succ_cons,
        List.take_succ_cons, ih]

theorem ShortSHA_length (s : GoString) : ((ShortSHA s).getD []).length = 54 := by
  have h : (fmtHex (Sum256 s)).length = 64 := by rw [fmtHex_length, Sum256_length]
  rw [ShortSHA_eq_take]
  simp [h]

/-! Section: the claims. -/

/-- C1: `projectID` is defined by cases for every string `s`: when `s` starts with `acid-`
the result is `s` itself, otherwise it is `acid-` followed by `ShortSHA(s)`; in either case
the call returns (no panic). -/
theorem projectID_cases (s : GoString) :
    (HasPrefix s (utf8 "acid-") = true ↔ utf8 "acid-" <+: s) ∧
    ∃ sha, ShortSHA s = some sha ∧
      projectID s = some (if HasPrefix s (utf8 "acid-") = true then s else utf8 "acid-" ++ sha) :=
  ⟨HasPrefix_iff s _, (fmtHex (Sum256 s)).take 54, ShortSHA_eq_take s, projectID_eq s⟩

/-- C2: for every string `s`, the empty one included, `ShortSHA(s)` returns a string of
exactly 54 characters, each a lower-case hexadecimal digit; the slice `[0:54]` of the
64-character hex rendering is in range. -/
theorem ShortSHA_length_lowerHex (s : GoString) :
    54 ≤ (fmtHex (Sum256 s)).length ∧
    ∃ sha, ShortSHA s = some sha ∧ sha.length = 54 ∧ ∀ c ∈ sha, isLowerHex c := by
  have h : (fmtHex (Sum256 s)).length = 64 := by rw [fmtHex_length, Sum256_length]
  refine ⟨by omega, (fmtHex (Sum256 s)).take 54, ShortSHA_eq_take s, ?_, ?_⟩
  · simp [h]
  · intro c hc
    exact fmtHex_lowerHex _ c (List.mem_of_mem_take hc)

/-- C3: for every string `s`, `ShortSHA(s)` is the first 54 characters of the 64-character
lower-case hexadecimal rendering of the 32-byte SHA-256 checksum of the bytes of `s`; the
checksum of `hello` renders as `2cf24dba...938b9824` and `ShortSHA("hello")` is its
54-character prefix. -/
theorem ShortSHA_is_sha256_hex_prefix (s : GoString) :
    (Sum256 s).length = 32 ∧ (fmtHex (Sum256 s)).length = 64 ∧
    ShortSHA s = some ((fmtHex (Sum256 s)).take 54) ∧
    fmtHex (Sum256 (utf8 "hello")) =
      utf8 "2cf24dba5fb0a30e26e83b2ac5b9e29e1b161e5c1fa7425e73043362938b9824" ∧
    ShortSHA (utf8 "hello") = some (utf8 "2cf24dba5fb0a30e26e83b2ac5b9e29e1b161e5c1fa7425e730433") := by
  refine ⟨Sum256_length s, ?_, ShortSHA_eq_take s, ?_, ?_⟩
  · rw [fmtHex_length, Sum256_length]
  · decide!
  · decide!

/-- C4: at the input `hello` the string returned by `ShortSHA` has 54 characters, not the
32 characters announced by the comment on `ShortSHA`. -/
theorem ShortSHA_hello_length :
    (ShortSHA (utf8 "hello")).map List.length = some 54 ∧
    (ShortSHA (utf8 "hello")).map List.length ≠ some 32 := by
  rw [ShortSHA_eq_take]
  have h : (fmtHex (Sum256 (utf8 "hello"))).length = 64 := by rw [fmtHex_length, Sum256_length]
  simp [h]

/-- C5: `projectID` is idempotent: for every string `s` it returns a key `k` with
`projectID(k) = k`, so that for every store and namespace `Get(s, ns)` and `Get(k, ns)`
read the same store key and return the same result. -/
theorem projectID_idempotent (s : GoString) :
    ∃ k, projectID s = some k ∧ projectID k = some k ∧
      (projectID s).bind projectID = projectID s ∧
      ∀ (ε : Type) (unmarshal : Unmarshal ε) (kubeClient : Except ε (Client ε)) (ns : GoString),
        Get unmarshal kubeClient k ns = Get unmarshal kubeClient s ns := by
  have hk := projectID_eq s
  generalize (fmtHex (Sum256 s)).take 54 = sha at hk
  have hp : projectID (if HasPrefix s (utf8 "acid-") = true then s else utf8 "acid-" ++ sha)
      = some (if HasPrefix s (utf8 "acid-") = true then s else utf8 "acid-" ++ sha) := by
    split
    · next h => simp [projectID, h]
    · simp [projectID, HasPrefix_append]
  refine ⟨_, hk, hp, ?_, ?_⟩
  · rw [hk]; exact hp
  · intro ε unmarshal kubeClient ns
    simp only [Get, hk, hp]

/-- C6: for every record and lookup namespace `ns`, `configureProject` sets
`Kubernetes.VCSSidecar` to `acidic.azurecr.io/vcs-sidecar:latest` when the `vcsSidecar`
value is absent or empty and to that value otherwise, and sets `Kubernetes.Namespace` to
`ns` when the `namespace` value is absent or empty and to that value otherwise. -/
theorem configureProject_kubernetes_defaults {ε : Type} (unmarshal : Unmarshal ε)
    (proj : Project) (data : GoString → Option (List UInt8)) (ns : GoString) :
    DefaultVCSSidecar = utf8 "acidic.azurecr.io/vcs-sidecar:latest" ∧
    (data (utf8 "vcsSidecar") = none ∨ data (utf8 "vcsSidecar") = some [] →
      (configureProject unmarshal proj data ns).1.Kubernetes.VCSSidecar = DefaultVCSSidecar) ∧
    (∀ v, data (utf8 "vcsSidecar") = some v → v ≠ [] →
      (configureProject unmarshal proj data ns).1.Kubernetes.VCSSidecar = v) ∧
    (data (utf8 "namespace") = none ∨ data (utf8 "namespace") = some [] →
      (configureProject unmarshal proj data ns).1.Kubernetes.Namespace = ns) ∧
    (∀ v, data (utf8 "namespace") = some v → v ≠ [] →
      (configureProject unmarshal proj data ns).1.Kubernetes.Namespace = v) := by
  have hV : (configureProject unmarshal proj data ns).1.Kubernetes.VCSSidecar
      = def_ (index data (utf8 "vcsSidecar")) DefaultVCSSidecar := by
    unfold configureProject; dsimp only; split
    · split <;> rfl
    · rfl
  have hN : (configureProject unmarshal proj data ns).1.Kubernetes.Namespace
      = def_ (index data (utf8 "namespace")) ns := by
    unfold configureProject; dsimp only; split
    · split <;> rfl
    · rfl
  refine ⟨rfl, ?_, ?_, ?_, ?_⟩
  · intro h; rw [hV, index_of_absent_or_empty h, def_of_empty]
  · intro v h hv; rw [hV, index_of_some h, def_of_nonempty hv]
  · intro h; rw [hN, index_of_absent_or_empty h, def_of_empty]
  · intro v h hv; rw [hN, index_of_some h, def_of_nonempty hv]

/-- Witness of C6: a record with `namespace = prod` and no `vcsSidecar` value, looked up
in namespace `default`. -/
theorem configureProject_kubernetes_defaults_witness :
    (configureProject exampleUnmarshal zeroProject
      (recordOf [(utf8 "namespace", utf8 "prod")]) (utf8 "default")).1.Kubernetes.VCSSidecar
      = utf8 "acidic.azurecr.io/vcs-sidecar:latest" ∧
    (configureProject exampleUnmarshal zeroProject
      (recordOf [(utf8 "namespace", utf8 "prod")]) (utf8 "default")).1.Kubernetes.Namespace
      = utf8 "prod" :=
  ⟨(configureProject_kubernetes_defaults exampleUnmarshal zeroProject
      (recordOf [(utf8 "namespace", utf8 "prod")]) (utf8 "default")).2.1 (Or.inl (by decide)),
   (configureProject_kubernetes_defaults exampleUnmarshal zeroProject
      (recordOf [(utf8 "namespace", utf8 "prod")]) (utf8 "default")).2.2.2.2
      (utf8 "prod") (by decide) (by decide)⟩

/-- C7: for every record found in the store, the decoded config carries the record's own
name in `Name`, and `Repo.Name` is the `repository` value when that value is non-empty and
the record's own name otherwise; the annotations play no part. -/
theorem loadProjectConfig_repo_name {ε : Type} (unmarshal : Unmarshal ε) (kc : Client ε)
    (id ns : GoString) (sec : Secret) (h : kc ns id = .ok sec) :
    (loadProjectConfig unmarshal (.ok kc) id ns).1.Name = sec.Name ∧
    (∀ v, sec.Data (utf8 "repository") = some v → v ≠ [] →
      (loadProjectConfig unmarshal (.ok kc) id ns).1.Repo.Name = v) ∧
    (sec.Data (utf8 "repository") = none ∨ sec.Data (utf8 "repository") = some [] →
      (loadProjectConfig unmarshal (.ok kc) id ns).1.Repo.Name = sec.Name) := by
  have hl : loadProjectConfig unmarshal (.ok kc) id ns
      = configureProject unmarshal
          { zeroProject with
            Name := sec.Name
            Repo := { zeroProject.Repo with
              Name := index sec.Annotations (utf8 "projectName") } } sec.Data ns := by
    simp only [loadProjectConfig, h]
  obtain ⟨hName, -, -, -, hRepo⟩ := configureProject_fields unmarshal
    { zeroProject with
      Name := sec.Name
      Repo := { zeroProject.Repo with
        Name := index sec.Annotations (utf8 "projectName") } } sec.Data ns
  rw [hl]
  refine ⟨hName, ?_, ?_⟩
  · intro v hv hne; rw [hRepo, index_of_some hv, def_of_nonempty hne]
  · intro hv; rw [hRepo, index_of_absent_or_empty hv, def_of_empty]

/-- Witness of C7: the record `badSecret` has no `repository` value and the annotation
`projectName = my-repo`; its `Repo.Name` is the record name `acid-demo`. -/
theorem loadProjectConfig_repo_name_witness :
    storeWith (utf8 "default") (utf8 "acid-demo") badSecret (utf8 "default") (utf8 "acid-demo")
      = .ok badSecret ∧
    (loadProjectConfig exampleUnmarshal
      (.ok (storeWith (utf8 "default") (utf8 "acid-demo") badSecret))
      (utf8 "acid-demo") (utf8 "default")).1.Repo.Name = utf8 "acid-demo" :=
  ⟨storeWith_self _ _ _,
   (loadProjectConfig_repo_name exampleUnmarshal _ _ _ badSecret (storeWith_self _ _ _)).2.2
     (Or.inl (by decide))⟩

/-- C8: for every record, `Repo.SSHKey` of the decoded config is the `sshKey` value with
every `$` replaced by a newline and every other character unchanged in order; it contains
no `$` and has the length of the stored value. The value `line1$line2$line3` decodes to
the three lines `line1`, `line2`, `line3`. -/
theorem configureProject_sshKey {ε : Type} (unmarshal : Unmarshal ε) (proj : Project)
    (data : GoString → Option (List UInt8)) (ns : GoString) :
    (configureProject unmarshal proj data ns).1.Repo.SSHKey
      = (index data (utf8 "sshKey")).map (fun c => if c = 36 then 10 else c) ∧
    (36 : UInt8) ∉ (configureProject unmarshal proj data ns).1.Repo.SSHKey ∧
    (configureProject unmarshal proj data ns).1.Repo.SSHKey.length
      = (index data (utf8 "sshKey")).length ∧
    utf8 "$" = [36] ∧ utf8 "\n" = [10] ∧
    (configureProject unmarshal proj
      (recordOf [(utf8 "sshKey", utf8 "line1$line2$line3")]) ns).1.Repo.SSHKey
      = utf8 "line1\nline2\nline3" := by
  have key : ∀ d : GoString → Option (List UInt8),
      (configureProject unmarshal proj d ns).1.Repo.SSHKey
        = (index d (utf8 "sshKey")).map (fun c => if c = 36 then 10 else c) := by
    intro d
    rw [(configureProject_fields unmarshal proj d ns).2.2.2.2, Replace_dollar]
  refine ⟨key data, ?_, ?_, utf8_dollar, utf8_newline, ?_⟩
  · rw [key data]
    intro hmem
    obtain ⟨c, -, hc⟩ := List.mem_map.mp hmem
    by_cases h : c = 36
    · rw [if_pos h] at hc; exact absurd hc (by decide)
    · rw [if_neg h] at hc; exact h hc
  · rw [key data, List.length_map]
  · rw [key]; decide

/-- C9: the SSH key round trip is lossless: for every text `t` without a `$`, storing the
escaped text (each newline written as `$`) as the `sshKey` value and decoding the record
yields `Repo.SSHKey = t`. -/
theorem configureProject_sshKey_roundtrip {ε : Type} (unmarshal : Unmarshal ε) (proj : Project)
    (data : GoString → Option (List UInt8)) (ns : GoString) (t : GoString)
    (ht : (36 : UInt8) ∉ t) (hd : data (utf8 "sshKey") = some (escapeSSHKey t)) :
    (configureProject unmarshal proj data ns).1.Repo.SSHKey = t := by
  rw [(configureProject_fields unmarshal proj data ns).2.2.2.2, Replace_dollar,
    index_of_some hd, escapeSSHKey_eq, unescape_escape t ht]

/-- Witness of C9: the two-line text `a`, `b` is stored as `a$b` and read back intact. -/
theorem configureProject_sshKey_roundtrip_witness :
    (36 : UInt8) ∉ utf8 "a\nb" ∧ escapeSSHKey (utf8 "a\nb") = utf8 "a$b" ∧
    (configureProject exampleUnmarshal zeroProject
      (recordOf [(utf8 "sshKey", escapeSSHKey (utf8 "a\nb"))]) (utf8 "default")).1.Repo.SSHKey
      = utf8 "a\nb" :=
  ⟨by decide, by decide,
   configureProject_sshKey_roundtrip exampleUnmarshal zeroProject
     (recordOf [(utf8 "sshKey", escapeSSHKey (utf8 "a\nb"))]) (utf8 "default") (utf8 "a\nb")
     (by decide) (by decide)⟩

/-- C10, as stated, fails: the record `badSecret`, whose `secrets` value is `not-json`, is
rejected with the syntax error, and the config handed back by `Get` alongside the error
carries the record's name, shared secret, SSH key and lookup namespace; it is not the
zero-valued config. -/
theorem Get_decode_error_not_zero :
    (exampleUnmarshal (index badSecret.Data (utf8 "secrets")) (some (fun _ => none))).2
      = some StoreError.jsonSyntax ∧
    (Get exampleUnmarshal (.ok (storeWith (utf8 "default") (utf8 "acid-demo") badSecret))
      (utf8 "acid-demo") (utf8 "default")).map
        (fun r => (r.1.Name, r.1.SharedSecret, r.1.Repo.SSHKey, r.1.Kubernetes.Namespace, r.2))
      = some (utf8 "acid-demo", utf8 "s3cr3t", utf8 "a\nb", utf8 "default",
          some StoreError.jsonSyntax) ∧
    Get exampleUnmarshal (.ok (storeWith (utf8 "default") (utf8 "acid-demo") badSecret))
      (utf8 "acid-demo") (utf8 "default") ≠ some (zeroProject, some StoreError.jsonSyntax) := by
  have h : (Get exampleUnmarshal
      (.ok (storeWith (utf8 "default") (utf8 "acid-demo") badSecret))
      (utf8 "acid-demo") (utf8 "default")).map
        (fun r => (r.1.Name, r.1.SharedSecret, r.1.Repo.SSHKey, r.1.Kubernetes.Namespace, r.2))
      = some (utf8 "acid-demo", utf8 "s3cr3t", utf8 "a\nb", utf8 "default",
          some StoreError.jsonSyntax) := by decide
  refine ⟨by decide, h, ?_⟩
  intro hz
  rw [hz] at h
  exact absurd h (by decide)

/-- C10, amended: for every record found in the store whose `secrets` value is non-empty
and rejected by the JSON decoder with error `e`, `Get` returns `e` together with a partly
decoded config: `Name`, `SharedSecret`, `GitHubToken`, `Kubernetes` and `Repo` are
populated from the record as on success, and only `Secrets` is left unassigned (`nil`). -/
theorem Get_decode_error {ε : Type} (unmarshal : Unmarshal ε) (kc : Client ε)
    (id ns key : GoString) (sec : Secret) (e : ε)
    (hkey : projectID id = some key) (hsec : kc ns key = .ok sec)
    (hd : index sec.Data (utf8 "secrets") ≠ [])
    (he : (unmarshal (index sec.Data (utf8 "secrets")) (some (fun _ => none))).2 = some e) :
    Get unmarshal (.ok kc) id ns =
      some ({ Name := sec.Name
              Repo := ⟨def_ (index sec.Data (utf8 "repository")) sec.Name,
                (index sec.Data (utf8 "sshKey")).map (fun c => if c = 36 then 10 else c),
                def_ (index sec.Data (utf8 "cloneURL")) []⟩
              Kubernetes := ⟨def_ (index sec.Data (utf8 "namespace")) ns,
                def_ (index sec.Data (utf8 "vcsSidecar")) DefaultVCSSidecar⟩
              SharedSecret := def_ (index sec.Data (utf8 "sharedSecret")) []
              GitHubToken := index sec.Data (utf8 "githubToken")
              Secrets := none }, some e) := by
  simp only [Get, hkey, Option.map_some', loadProjectConfig, hsec]
  rw [configureProject_error unmarshal _ sec.Data ns e hd he, Replace_dollar]
  rfl

/-- Witness of C10 (amended): the record `badSecret` in namespace `default`. -/
theorem Get_decode_error_witness :
    index badSecret.Data (utf8 "secrets") = utf8 "not-json" ∧
    (exampleUnmarshal (utf8 "not-json") (some (fun _ => none))).2 = some StoreError.jsonSyntax ∧
    (Get exampleUnmarshal (.ok (storeWith (utf8 "default") (utf8 "acid-demo") badSecret))
      (utf8 "acid-demo") (utf8 "default")).map (fun r => r.2) = some (some StoreError.jsonSyntax) :=
  ⟨by decide, by decide, congrArg (Option.map (fun r => r.2))
    (Get_decode_error exampleUnmarshal (storeWith (utf8 "default") (utf8 "acid-demo") badSecret)
      (utf8 "acid-demo") (utf8 "default") (utf8 "acid-demo") badSecret StoreError.jsonSyntax
      (by decide) (storeWith_self _ _ _) (by decide) (by decide))⟩

/-- C11: for every record, when the `secrets` value is absent or empty, decoding succeeds
and `Secrets` is the empty, non-nil mapping; when it is non-empty and the JSON decoder
accepts it as the object `m`, decoding succeeds and `Secrets = m`. -/
theorem configureProject_secrets {ε : Type} (unmarshal : Unmarshal ε) (proj : Project)
    (data : GoString → Option (List UInt8)) (ns : GoString) :
    (data (utf8 "secrets") = none ∨ data (utf8 "secrets") = some [] →
      (configureProject unmarshal proj data ns).2 = none ∧
      (configureProject unmarshal proj data ns).1.Secrets = some (fun _ => none)) ∧
    (∀ d m, data (utf8 "secrets") = some d → d ≠ [] →
      unmarshal d (some (fun _ => none)) = (some m, none) →
      (configureProject unmarshal proj data ns).2 = none ∧
      (configureProject unmarshal proj data ns).1.Secrets = some m) := by
  constructor
  · intro h
    have hd := index_of_absent_or_empty h
    unfold configureProject; dsimp only
    rw [hd]; exact ⟨rfl, rfl⟩
  · intro d m h hne hu
    have hd := index_of_some h
    have hlen : d.length > 0 := List.length_pos.mpr hne
    unfold configureProject; dsimp only
    rw [hd, if_pos hlen, hu]; exact ⟨rfl, rfl⟩

/-- Witness of C11: the `secrets` value `jsonAB` yields exactly the two entries `A: 1` and
`B: 2`; a record without a `secrets` value yields the empty mapping. -/
theorem configureProject_secrets_witness :
    ((configureProject exampleUnmarshal zeroProject
        (recordOf [(utf8 "secrets", jsonAB)]) (utf8 "default")).2 = none ∧
      (configureProject exampleUnmarshal zeroProject
        (recordOf [(utf8 "secrets", jsonAB)]) (utf8 "default")).1.Secrets = some mapAB) ∧
    ((configureProject exampleUnmarshal zeroProject (recordOf []) (utf8 "default")).2 = none ∧
      (configureProject exampleUnmarshal zeroProject (recordOf []) (utf8 "default")).1.Secrets
        = some (fun _ => none)) :=
  ⟨(configureProject_secrets exampleUnmarshal zeroProject
      (recordOf [(utf8 "secrets", jsonAB)]) (utf8 "default")).2 jsonAB mapAB
      (by decide) (by decide) rfl,
   (configureProject_secrets exampleUnmarshal zeroProject (recordOf []) (utf8 "default")).1
      (Or.inl rfl)⟩

/-- C12: for every id and namespace, when obtaining the store client fails with `e`, or
the read of `(namespace, projectID(id))` fails with `e` (for example not-found), `Get`
returns `e` unchanged together with a project all of whose fields are zero. -/
theorem Get_store_error {ε : Type} (unmarshal : Unmarshal ε) (id ns : GoString) (e : ε) :
    zeroProject = ⟨[], ⟨[], [], []⟩, ⟨[], []⟩, [], [], none⟩ ∧
    Get unmarshal (.error e) id ns = some (zeroProject, some e) ∧
    ∃ key, projectID id = some key ∧
      ∀ kc : Client ε, kc ns key = .error e →
        Get unmarshal (.ok kc) id ns = some (zeroProject, some e) := by
  refine ⟨rfl, ?_, _, projectID_eq id, ?_⟩
  · simp only [Get, projectID_eq, Option.map_some', loadProjectConfig]
  · intro kc hkc
    simp only [Get, projectID_eq, Option.map_some', loadProjectConfig, hkc]

/-- Witness of C12: the store holds a record at `acid-demo` only; the lookup of
`acid-other` is answered with not-found. -/
theorem Get_store_error_witness :
    storeWith (utf8 "default") (utf8 "acid-demo") badSecret (utf8 "default") (utf8 "acid-other")
      = .error StoreError.notFound ∧
    Get exampleUnmarshal (.ok (storeWith (utf8 "default") (utf8 "acid-demo") badSecret))
      (utf8 "acid-other") (utf8 "default") = some (zeroProject, some StoreError.notFound) := by
  have hs : storeWith (utf8 "default") (utf8 "acid-demo") badSecret (utf8 "default")
      (utf8 "acid-other") = .error StoreError.notFound :=
    storeWith_other _ _ _ _ _ (by decide)
  obtain ⟨-, -, key, hkey, h⟩ :=
    Get_store_error exampleUnmarshal (utf8 "acid-other") (utf8 "default") StoreError.notFound
  have hk : key = utf8 "acid-other" := by
    have h2 : projectID (utf8 "acid-other") = some (utf8 "acid-other") := by decide
    rw [h2] at hkey
    exact (Option.some.inj hkey).symm
  subst hk
  exact ⟨hs, h _ hs⟩

/-- C13: an empty byte sequence is treated like an absent key: for every record, namespace
and key `k` (the eight keys read by the decoder and any other), a record that maps `k` to
an empty value decodes to exactly the same config and error as the record with `k`
removed. -/
theorem configureProject_empty_as_absent {ε : Type} (unmarshal : Unmarshal ε) (proj : Project)
    (data : GoString → Option (List UInt8)) (ns k : GoString) (h : data k = some []) :
    configureProject unmarshal proj data ns
      = configureProject unmarshal proj (removeKey data k) ns :=
  (configureProject_congr unmarshal proj (removeKey data k) data ns
    (index_removeKey data k h)).symm

/-- Witness of C13: a record with an empty `secrets` value and a `sharedSecret`. -/
theorem configureProject_empty_as_absent_witness :
    recordOf [(utf8 "secrets", []), (utf8 "sharedSecret", utf8 "s3cr3t")] (utf8 "secrets")
      = some [] ∧
    removeKey (recordOf [(utf8 "secrets", []), (utf8 "sharedSecret", utf8 "s3cr3t")])
      (utf8 "secrets") (utf8 "secrets") = none ∧
    configureProject exampleUnmarshal zeroProject
        (recordOf [(utf8 "secrets", []), (utf8 "sharedSecret", utf8 "s3cr3t")]) (utf8 "default")
      = configureProject exampleUnmarshal zeroProject
        (removeKey (recordOf [(utf8 "secrets", []), (utf8 "sharedSecret", utf8 "s3cr3t")])
          (utf8 "secrets")) (utf8 "default") :=
  ⟨by decide, by decide,
   configureProject_empty_as_absent exampleUnmarshal zeroProject
     (recordOf [(utf8 "secrets", []), (utf8 "sharedSecret", utf8 "s3cr3t")]) (utf8 "default")
     (utf8 "secrets") (by decide)⟩

/-- C14: end to end over a store given as a lookup function: for every id, namespace `ns`
and store holding a record `r` at `(ns, projectID(id))` whose `secrets` value is absent,
empty or accepted by the JSON decoder, `Get(id, ns)` returns no error and a config with
`Name` the name of `r` and every other field decoded from the data of `r` with fallback
namespace `ns`. -/
theorem Get_success {ε : Type} (unmarshal : Unmarshal ε) (kc : Client ε)
    (id ns key : GoString) (sec : Secret)
    (hkey : projectID id = some key) (hsec : kc ns key = .ok sec)
    (hvalid : index sec.Data (utf8 "secrets") = [] ∨
      (unmarshal (index sec.Data (utf8 "secrets")) (some (fun _ => none))).2 = none) :
    Get unmarshal (.ok kc) id ns =
      some ({ Name := sec.Name
              Repo := ⟨def_ (index sec.Data (utf8 "repository")) sec.Name,
                (index sec.Data (utf8 "sshKey")).map (fun c => if c = 36 then 10 else c),
                def_ (index sec.Data (utf8 "cloneURL")) []⟩
              Kubernetes := ⟨def_ (index sec.Data (utf8 "namespace")) ns,
                def_ (index sec.Data (utf8 "vcsSidecar")) DefaultVCSSidecar⟩
              SharedSecret := def_ (index sec.Data (utf8 "sharedSecret")) []
              GitHubToken := index sec.Data (utf8 "githubToken")
              Secrets := if index sec.Data (utf8 "secrets") = [] then some (fun _ => none)
                else (unmarshal (index sec.Data (utf8 "secrets")) (some (fun _ => none))).1 },
            none) := by
  simp only [Get, hkey, Option.map_some', loadProjectConfig, hsec]
  rw [configureProject_success unmarshal _ sec.Data ns hvalid, Replace_dollar]

/-- Witness of C14: `Get("myproj", "default")` on a store holding `myprojSecret` at
`acid-` followed by the short digest of `myproj` returns no error, `Repo.SSHKey` with the
two lines `a` and `b`, `Kubernetes.Namespace = default`, and `Repo.Name` defaulted to the
record name. -/
theorem Get_success_witness :
    projectID (utf8 "myproj") = some myprojKey ∧
    ShortSHA (utf8 "myproj")
      = some (utf8 "14a10ceb48d968cf9a1514ab1d1c15554fc9f7ba356d9bb8248a16") ∧
    (Get exampleUnmarshal (.ok (storeWith (utf8 "default") myprojKey myprojSecret))
      (utf8 "myproj") (utf8 "default")).map
        (fun r => (r.1.Name, r.1.Repo.Name, r.1.Repo.SSHKey, r.1.Kubernetes.Namespace,
          r.1.Kubernetes.VCSSidecar, r.2))
      = some (myprojKey, myprojKey, utf8 "a\nb", utf8 "default",
          utf8 "acidic.azurecr.io/vcs-sidecar:latest", none) :=
  ⟨projectID_myproj, by decide!,
   (congrArg (Option.map (fun r : Project × Option StoreError =>
        (r.1.Name, r.1.Repo.Name, r.1.Repo.SSHKey, r.1.Kubernetes.Namespace,
          r.1.Kubernetes.VCSSidecar, r.2)))
      (Get_success exampleUnmarshal (storeWith (utf8 "default") myprojKey myprojSecret)
        (utf8 "myproj") (utf8 "default") myprojKey myprojSecret projectID_myproj
        (storeWith_self _ _ _) (Or.inl (by decide)))).trans (by rfl)⟩

/-- C15, as stated, fails: when the store client cannot be obtained, `Get` returns the
error without issuing any call on the store, so the number of read calls is 0, not 1. -/
theorem GetTraced_no_read_without_client :
    GetTraced exampleUnmarshal (.error StoreError.connection) (utf8 "myproj") (utf8 "default")
      = some ((zeroProject, some StoreError.connection), []) ∧
    (GetTraced exampleUnmarshal (.error StoreError.connection) (utf8 "myproj")
      (utf8 "default")).map (fun r => r.2.length) ≠ some 1 := by
  have h : GetTraced exampleUnmarshal (.error StoreError.connection) (utf8 "myproj")
      (utf8 "default") = some ((zeroProject, some StoreError.connection), []) := by
    simp only [GetTraced, projectID_myproj, Option.map_some', loadProjectConfigTraced]
  refine ⟨h, ?_⟩
  rw [h]; decide

/-- C15, amended: every invocation of `Get` issues at most one call on the store and no
write: no call when the store client cannot be obtained, and otherwise exactly one read,
of `(namespace, projectID(id))`, whatever the store answers. The traced function returns
what `Get` returns. -/
theorem GetTraced_calls {ε : Type} (unmarshal : Unmarshal ε) (kubeClient : Except ε (Client ε))
    (id ns : GoString) :
    (GetTraced unmarshal kubeClient id ns).map (fun r => r.1) = Get unmarshal kubeClient id ns ∧
    ∃ key, projectID id = some key ∧
      (GetTraced unmarshal kubeClient id ns).map (fun r => r.2)
        = some (match kubeClient with
                | .error _ => []
                | .ok _ => [StoreCall.read ns key]) := by
  refine ⟨?_, _, projectID_eq id, ?_⟩
  · simp only [GetTraced, Get, projectID_eq, Option.map_some', loadProjectConfigTraced_fst]
  · simp only [GetTraced, projectID_eq, Option.map_some', loadProjectConfigTraced_snd]

/-- C16, as stated, fails: for the input `hello` the digest has 256 bits and the output of
`ShortSHA` represents 216 of them, so 40 bits are discarded, five times the 8 bits of the
claim. -/
theorem discardedBits_hello :
    discardedBits (utf8 "hello") = 40 ∧ discardedBits (utf8 "hello") ≠ 8 ∧
    ¬ (discardedBits (utf8 "hello") < 2 * 8) := by
  have h : discardedBits (utf8 "hello") = 40 := by
    unfold discardedBits
    rw [Sum256_length, ShortSHA_length]
  rw [h]; decide

/-- C16, amended: truncating the hex rendering of the 256-bit digest to 54 characters
keeps the first 27 of the 32 digest bytes and discards the last 5 bytes, that is
`256 - 4 * 54 = 40` bits. -/
theorem discardedBits_eq (s : GoString) :
    8 * (Sum256 s).length = 256 ∧
    ShortSHA s = some (fmtHex ((Sum256 s).take 27)) ∧
    ((Sum256 s).take 27).length = 27 ∧ ((Sum256 s).drop 27).length = 5 ∧
    discardedBits s = 256 - 4 * 54 ∧ discardedBits s = 40 := by
  have hl := Sum256_length s
  have hd : discardedBits s = 40 := by
    unfold discardedBits
    rw [Sum256_length, ShortSHA_length]
  refine ⟨by omega, ?_, ?_, ?_, hd, hd⟩
  · rw [ShortSHA_eq_take]
    exact congrArg some (fmtHex_take 27 (Sum256 s))
  · simp [hl]
  · simp [hl]

/-- C17: the `$`/newline escaping is lossy when the original key contains a `$`: the text
`a$b` is stored as `a$b` and decodes to the two lines `a`, `b`, which differs from the
text; the distinct texts `a$b` and `a`, newline, `b` decode to the same `Repo.SSHKey`. -/
theorem configureProject_sshKey_lossy {ε : Type} (unmarshal : Unmarshal ε) (proj : Project)
    (ns : GoString) :
    (36 : UInt8) ∈ utf8 "a$b" ∧ utf8 "a$b" ≠ utf8 "a\nb" ∧
    (configureProject unmarshal proj
      (recordOf [(utf8 "sshKey", escapeSSHKey (utf8 "a$b"))]) ns).1.Repo.SSHKey ≠ utf8 "a$b" ∧
    (configureProject unmarshal proj
      (recordOf [(utf8 "sshKey", escapeSSHKey (utf8 "a$b"))]) ns).1.Repo.SSHKey
      = (configureProject unmarshal proj
          (recordOf [(utf8 "sshKey", escapeSSHKey (utf8 "a\nb"))]) ns).1.Repo.SSHKey := by
  have key : ∀ d : GoString → Option (List UInt8),
      (configureProject unmarshal proj d ns).1.Repo.SSHKey
        = (index d (utf8 "sshKey")).map (fun c => if c = 36 then 10 else c) := by
    intro d
    rw [(configureProject_fields unmarshal proj d ns).2.2.2.2, Replace_dollar]
  refine ⟨by decide, by decide, ?_, ?_⟩
  · rw [key]; decide
  · rw [key, key]; decide

/-- C18: the annotations of the record never influence the result: for every two stores
whose records at `(ns, projectID(id))` have the same name and the same data, whatever
their annotations, `Get` returns identical configs and errors. -/
theorem Get_annotations_irrelevant {ε : Type} (unmarshal : Unmarshal ε) (kc1 kc2 : Client ε)
    (id ns key : GoString) (sec1 sec2 : Secret)
    (hkey : projectID id = some key)
    (h1 : kc1 ns key = .ok sec1) (h2 : kc2 ns key = .ok sec2)
    (hname : sec1.Name = sec2.Name) (hdata : sec1.Data = sec2.Data) :
    Get unmarshal (.ok kc1) id ns = Get unmarshal (.ok kc2) id ns := by
  simp only [Get, hkey, Option.map_some', loadProjectConfig, h1, h2, hname, hdata]
  exact congrArg some
    ((configureProject_repo_irrelevant unmarshal { zeroProject with Name := sec2.Name }
        { zeroProject.Repo with Name := index sec1.Annotations (utf8 "projectName") }
        sec2.Data ns).trans
      (configureProject_repo_irrelevant unmarshal { zeroProject with Name := sec2.Name }
        { zeroProject.Repo with Name := index sec2.Annotations (utf8 "projectName") }
        sec2.Data ns).symm)

/-- Witness of C18: the records `myprojSecret` and `myprojSecretRenamed` differ in the
`projectName` annotation only. -/
theorem Get_annotations_irrelevant_witness :
    myprojSecret.Annotations (utf8 "projectName")
      ≠ myprojSecretRenamed.Annotations (utf8 "projectName") ∧
    Get exampleUnmarshal (.ok (storeWith (utf8 "default") myprojKey myprojSecret))
        (utf8 "myproj") (utf8 "default")
      = Get exampleUnmarshal (.ok (storeWith (utf8 "default") myprojKey myprojSecretRenamed))
        (utf8 "myproj") (utf8 "default") :=
  ⟨by decide,
   Get_annotations_irrelevant exampleUnmarshal _ _ (utf8 "myproj") (utf8 "default") myprojKey
     myprojSecret myprojSecretRenamed projectID_myproj (storeWith_self _ _ _)
     (storeWith_self _ _ _) rfl rfl⟩

/-- C19: `configureProject` returns an error exactly when the `secrets` value is non-empty
and the JSON decoder rejects it, and the error is the decoder's; no other key, value or
fallback plays a part. On failure `proj.Secrets` keeps the value it had on entry (it is
not assigned), while the scalar fields and `Repo` have been written. -/
theorem configureProject_error_iff {ε : Type} (unmarshal : Unmarshal ε) (proj : Project)
    (data : GoString → Option (List UInt8)) (ns : GoString) :
    ((configureProject unmarshal proj data ns).2 ≠ none ↔
      index data (utf8 "secrets") ≠ [] ∧
      (unmarshal (index data (utf8 "secrets")) (some (fun _ => none))).2 ≠ none) ∧
    (configureProject unmarshal proj data ns).2
      = (if index data (utf8 "secrets") = [] then none
         else (unmarshal (index data (utf8 "secrets")) (some (fun _ => none))).2) ∧
    ((configureProject unmarshal proj data ns).2 ≠ none →
      (configureProject unmarshal proj data ns).1.Secrets = proj.Secrets ∧
      (configureProject unmarshal proj data ns).1.SharedSecret
        = def_ (index data (utf8 "sharedSecret")) [] ∧
      (configureProject unmarshal proj data ns).1.GitHubToken
        = index data (utf8 "githubToken") ∧
      (configureProject unmarshal proj data ns).1.Kubernetes
        = ⟨def_ (index data (utf8 "namespace")) ns,
           def_ (index data (utf8 "vcsSidecar")) DefaultVCSSidecar⟩ ∧
      (configureProject unmarshal proj data ns).1.Repo
        = ⟨def_ (index data (utf8 "repository")) proj.Name,
           (index data (utf8 "sshKey")).map (fun c => if c = 36 then 10 else c),
           def_ (index data (utf8 "cloneURL")) []⟩) := by
  have herr : (configureProject unmarshal proj data ns).2
      = (if index data (utf8 "secrets") = [] then none
         else (unmarshal (index data (utf8 "secrets")) (some (fun _ => none))).2) := by
    by_cases hd : index data (utf8 "secrets") = []
    · rw [configureProject_success unmarshal proj data ns (Or.inl hd)]
      simp only [if_pos hd]
    · rw [if_neg hd]
      cases hu : (unmarshal (index data (utf8 "secrets")) (some (fun _ => none))).2 with
      | none => rw [configureProject_success unmarshal proj data ns (Or.inr hu)]
      | some e => rw [configureProject_error unmarshal proj data ns e hd hu]
  have hiff : (configureProject unmarshal proj data ns).2 ≠ none ↔
      index data (utf8 "secrets") ≠ [] ∧
      (unmarshal (index data (utf8 "secrets")) (some (fun _ => none))).2 ≠ none := by
    rw [herr]
    by_cases hd : index data (utf8 "secrets") = []
    · simp [hd]
    · simp [hd]
  refine ⟨hiff, herr, ?_⟩
  intro hfail
  obtain ⟨hd, hu⟩ := hiff.mp hfail
  obtain ⟨e, he⟩ := Option.ne_none_iff_exists'.mp hu
  rw [configureProject_error unmarshal proj data ns e hd he, Replace_dollar]
  exact ⟨rfl, rfl, rfl, rfl, rfl⟩

/-- Witness of C19: decoding the data of `badSecret` fails, `Secrets` stays `nil`, and the
shared secret has been written. -/
theorem configureProject_error_iff_witness :
    (configureProject exampleUnmarshal zeroProject badSecret.Data (utf8 "default")).2
      = some StoreError.jsonSyntax ∧
    ((configureProject exampleUnmarshal zeroProject badSecret.Data
      (utf8 "default")).1.Secrets.isNone = true ∧
    (configureProject exampleUnmarshal zeroProject badSecret.Data (utf8 "default")).1.SharedSecret
      = utf8 "s3cr3t") := by
  have h := (configureProject_error_iff exampleUnmarshal zeroProject badSecret.Data
    (utf8 "default")).2.2 (by decide)
  refine ⟨by decide, ?_, ?_⟩
  · rw [h.1]; rfl
  · rw [h.2.1]; decide

end Storage
